import Mathlib

/-
Verification of the polygon-indexer pipeline: a shallow embedding of the
core Rust modules (parser.rs, db.rs, aggregator.rs, indexer.rs, rpc.rs,
api.rs) as executable Lean definitions, together with theorems settling
the specification claims about decoding, classification, persistence,
aggregation, retry and backoff behaviour.
-/

namespace PolygonIndexer

/-! ## Strings, hex digits and radix parsing

The Rust code works on hex strings (`hex::decode`,
`u64::from_str_radix`, `u128::from_str_radix`, `trim_start_matches`).
Strings are modelled as lists of characters. -/

/-- A string, modelled as a list of characters. -/
abbrev Str := List Char

/-- Value of one hexadecimal digit character, (none) for a non-hex
character.  Mirrors the digit test shared by hex::decode and
from_str_radix with radix 16. -/
def hexVal (c : Char) : Option Nat :=
  if '0' ≤ c ∧ c ≤ '9' then some (c.toNat - '0'.toNat)
  else if 'a' ≤ c ∧ c ≤ 'f' then some (c.toNat - 'a'.toNat + 10)
  else if 'A' ≤ c ∧ c ≤ 'F' then some (c.toNat - 'A'.toNat + 10)
  else none

/-- Model of Rust hex::decode: consumes pairs of hex digits into bytes;
fails on odd length or on any non-hex character. -/
def hexDecodeBytes : List Char → Option (List Nat)
  | [] => some []
  | [_] => none
  | c1 :: c2 :: rest =>
    match hexVal c1, hexVal c2, hexDecodeBytes rest with
    | some h, some l, some tail => some ((h * 16 + l) :: tail)
    | _, _, _ => none

/-- Model of s.trim_start_matches of the two characters zero and x:
removes every leading repetition of that two-character pattern. -/
def strip0x : Str → Str
  | '0' :: 'x' :: rest => strip0x rest
  | s => s

/-- Accumulator loop of from_str_radix with radix 16: (none) on the
first non-hex character. -/
def parseHexAccum : List Char → Nat → Option Nat
  | [], acc => some acc
  | c :: rest, acc =>
    match hexVal c with
    | none => none
    | some d => parseHexAccum rest (acc * 16 + d)

/-- Model of Rust unsigned from_str_radix with radix 16 for an integer
type bounded by `bound`: an optional leading plus sign, then at least
one hex digit, failing on empty input, on a bad digit or on overflow
past the type bound. -/
def fromStrRadix16 (bound : Nat) (s : Str) : Option Nat :=
  let digits := match s with
    | '+' :: rest => rest
    | t => t
  if digits.isEmpty then none
  else
    match parseHexAccum digits 0 with
    | none => none
    | some v => if v < bound then some v else none

/-- u128::from_str_radix(s, 16), as used for the data payload. -/
def u128FromStrRadix16 (s : Str) : Option Nat := fromStrRadix16 (2 ^ 128) s

/-- u64::from_str_radix(s, 16), as used for block numbers and log
indices. -/
def u64FromStrRadix16 (s : Str) : Option Nat := fromStrRadix16 (2 ^ 64) s

/-! ## rpc.rs: raw log entries -/

/-- A raw log entry as deserialized by rpc.rs (struct Log). -/
structure Log where
  address : Str
  topics : List Str
  data : Str
  block_number_hex : Str
  tx_hash : Str
  log_index_hex : Str
deriving DecidableEq

/-! ## parser.rs: decoding one log into a typed transfer -/

/-- A 20-byte address (alloy Address), as its byte list. -/
abbrev Addr := List Nat

/-- A decoded ERC20 transfer (parser.rs struct Transfer).  The fields
from and to of the Rust struct are written from_addr and to_addr. -/
structure Transfer where
  from_addr : Addr
  to_addr : Addr
  value_u128 : Nat
  block_number : Nat
  tx_hash : Str
  log_index : Nat
deriving DecidableEq

/-- parser.rs topic_to_address: strips the 0x prefix, hex-decodes,
requires exactly 32 bytes, and keeps the low 20 bytes (bytes 12..32). -/
def topic_to_address (topic : Str) : Option Addr :=
  match hexDecodeBytes (strip0x topic) with
  | none => none
  | some bytes => if bytes.length ≠ 32 then none else some (bytes.drop 12)

/-- parser.rs decode_transfer: rejects logs with fewer than 3 topics,
extracts both addresses from topics 1 and 2, parses the data payload as
a u128 defaulting to 0 on a parse error, parses the block number
(rejecting the log on error) and the log index (defaulting to 0). -/
def decode_transfer (log : Log) : Option Transfer :=
  if log.topics.length < 3 then none
  else
    match topic_to_address (log.topics.getD 1 []) with
    | none => none
    | some f =>
      match topic_to_address (log.topics.getD 2 []) with
      | none => none
      | some t =>
        let value_u128 := (u128FromStrRadix16 (strip0x log.data)).getD 0
        match u64FromStrRadix16 (strip0x log.block_number_hex) with
        | none => none
        | some bn =>
          let log_index := (u64FromStrRadix16 (strip0x log.log_index_hex)).getD 0
          some ⟨f, t, value_u128, bn, log.tx_hash, log_index⟩

/-! ## Classification (indexer.rs, the direction expression of run) -/

/-- Transfer direction. -/
inductive Direction
  | IN
  | OUT
deriving DecidableEq

/-- The direction expression of indexer.rs run: IN when the recipient
is in the watched exchange set, otherwise OUT when the sender is,
otherwise no direction (the transfer is dropped).  The watched set
(HashSet of Address) is modelled as a list of addresses with
membership. -/
def classify_direction (watched : List Addr) (f t : Addr) : Option Direction :=
  if t ∈ watched then some Direction.IN
  else if f ∈ watched then some Direction.OUT
  else none

/-! ## indexer.rs: block-range arithmetic (saturating, u64) -/

/-- Rust u64 saturating_sub.  On natural numbers truncated subtraction
is exactly the saturating subtraction of the source. -/
def saturating_sub (a b : Nat) : Nat := a - b

/-- indexer.rs line 11: blocks scanned by the startup backfill. -/
def backfill_blocks : Nat := 5000

/-- indexer.rs line 12: blocks scanned per polling cycle. -/
def lookback_blocks : Nat := 100

/-- indexer.rs lines 24 and 99: target = latest.saturating_sub(confirmations). -/
def target_block (latest confirmations : Nat) : Nat :=
  saturating_sub latest confirmations

/-- indexer.rs line 25: start of the backfill range. -/
def backfill_start (latest confirmations : Nat) : Nat :=
  saturating_sub (target_block latest confirmations) backfill_blocks

/-- indexer.rs line 108: start of the live lookback range. -/
def live_from_block (latest confirmations : Nat) : Nat :=
  saturating_sub (target_block latest confirmations) lookback_blocks

/-! ## db.rs: the transfers table and record_transfer

Amounts are rust_decimal Decimal values stored as TEXT; value-wise a
Decimal is a rational with a power-of-ten denominator, so the amount
column is modelled as a rational. -/

/-- One row of the transfers table (db.rs INIT_SQL). -/
structure Row where
  block_number : Int
  tx_hash : Str
  log_index : Int
  token_address : Str
  from_address : Str
  to_address : Str
  amount : ℚ
  direction : Direction
  timestamp : Nat
deriving DecidableEq

/-- The identity key comparison of the UNIQUE(tx_hash, log_index,
token_address) constraint. -/
def keyEq (a b : Row) : Bool :=
  decide (a.tx_hash = b.tx_hash ∧ a.log_index = b.log_index ∧
    a.token_address = b.token_address)

/-- Effect of the ON CONFLICT DO UPDATE clause of record_transfer:
amount, direction and timestamp are overwritten from the excluded row,
every other column keeps its stored value. -/
def overwriteRow (old upd : Row) : Row :=
  { old with amount := upd.amount, direction := upd.direction,
             timestamp := upd.timestamp }

/-- db.rs record_transfer: INSERT ... ON CONFLICT(tx_hash, log_index,
token_address) DO UPDATE SET amount, direction, timestamp.  On a key
collision the existing row is updated in place; otherwise the row is
appended.  The statement never fails on a duplicate key. -/
def record_transfer (tbl : List Row) (r : Row) : List Row :=
  if tbl.any (fun x => keyEq x r) then
    tbl.map (fun x => if keyEq x r then overwriteRow x r else x)
  else tbl ++ [r]

/-- Number of rows of the table sharing the identity key of `r`. -/
def countKey (tbl : List Row) (r : Row) : Nat :=
  (tbl.filter (fun x => keyEq x r)).length

/-- The UNIQUE constraint invariant: no identity key has two rows. -/
def KeyUnique (tbl : List Row) : Prop := ∀ r, countKey tbl r ≤ 1

/-! ## aggregator.rs: update_netflows

The SQL of update_netflows sums `CAST(amount AS REAL)` per token and
direction: each amount string is converted to an IEEE-754 binary64
value and the running SUM is accumulated in binary64.  Binary64 values
of ordinary magnitude are exactly the rationals of the form m * 2^e
with m an integer of at most 53 bits, and every arithmetic result is
rounded to nearest, ties to even.  `round53` is that rounding (overflow
and subnormal thresholds are irrelevant at the magnitudes of the
claims). -/

/-- Round a rational to the nearest integer, ties to even. -/
def rnEven (x : ℚ) : ℤ :=
  if x - ⌊x⌋ < 1 / 2 then ⌊x⌋
  else if (1 : ℚ) / 2 < x - ⌊x⌋ then ⌊x⌋ + 1
  else if ⌊x⌋ % 2 = 0 then ⌊x⌋ else ⌊x⌋ + 1

/-- The rational power of two with an integer exponent. -/
def pow2z (k : ℤ) : ℚ :=
  if 0 ≤ k then (2 : ℚ) ^ k.toNat else ((2 : ℚ) ^ (-k).toNat)⁻¹

/-- Round a nonnegative rational to the nearest binary64 value
(53 significant bits, round to nearest, ties to even): the unit in the
last place is two to the binary exponent of q minus 52. -/
def round53Nonneg (q : ℚ) : ℚ :=
  if q = 0 then 0
  else (rnEven (q / pow2z (Int.log 2 q - 52)) : ℚ) * pow2z (Int.log 2 q - 52)

/-- Round a rational to the nearest binary64 value; the model of a
SQLite CAST(... AS REAL) of a decimal string and of each binary64
arithmetic result. -/
def round53 (q : ℚ) : ℚ :=
  if q < 0 then -round53Nonneg (-q) else round53Nonneg q

/-- SQLite SUM over a REAL column: a running binary64 accumulation,
each addition rounded. -/
def sumReal (xs : List ℚ) : ℚ :=
  xs.foldl (fun acc x => round53 (acc + x)) 0

/-- The columns of a transfers row read by the update_netflows SQL
besides token_address: direction, amount, block_number. -/
def rowKernel (r : Row) : Direction × ℚ × Int :=
  (r.direction, r.amount, r.block_number)

/-- GROUP BY token_address: the rows of one token, in table order. -/
def tokenRows (rows : List Row) (tok : Str) : List Row :=
  rows.filter (fun r => decide (r.token_address = tok))

/-- The (direction, amount, block_number) triples of one token. -/
def tokenKernels (rows : List Row) (tok : Str) : List (Direction × ℚ × Int) :=
  (tokenRows rows tok).map rowKernel

/-- The inflow column of update_netflows:
SUM(CASE WHEN direction = IN THEN CAST(amount AS REAL) ELSE 0 END).
Each matching amount is cast to binary64 and the sum is accumulated in
binary64. -/
def inflow_f64 (rows : List Row) (tok : Str) : ℚ :=
  sumReal ((tokenKernels rows tok).map
    (fun k => if k.1 = Direction.IN then round53 k.2.1 else 0))

/-- The outflow column of update_netflows, as inflow_f64 with
direction OUT. -/
def outflow_f64 (rows : List Row) (tok : Str) : ℚ :=
  sumReal ((tokenKernels rows tok).map
    (fun k => if k.1 = Direction.OUT then round53 k.2.1 else 0))

/-- The net value computed by update_netflows for one token: the
binary64 inflow and outflow columns, subtracted.  (In the source each
column is re-read as a Decimal through the shortest round-tripping
decimal string of its binary64 value before the subtraction; the
re-read value p of a column c is exactly some rational with
round53 p = c, which the claim C1 theorem accounts for.) -/
def update_netflows_net (rows : List Row) (tok : Str) : ℚ :=
  inflow_f64 rows tok - outflow_f64 rows tok

/-- MAX(block_number) of the rows of one token, the last_block column
persisted by update_netflows (0 for an absent group, which the SQL
never produces). -/
def update_netflows_last_block (rows : List Row) (tok : Str) : Int :=
  match (tokenKernels rows tok).map (fun k => k.2.2) with
  | [] => 0
  | b :: bs => bs.foldl max b

/-- Modelled from the spec: the invariant value
sum(amount where direction=IN) - sum(amount where direction=OUT) over
the rows of one token, computed in exact decimal arithmetic with no
floating-point rounding.  Stated from the words of the spec for
comparison with the computation of update_netflows. -/
def exact_net (rows : List Row) (tok : Str) : ℚ :=
  ((tokenKernels rows tok).map
    (fun k => match k.1 with
      | Direction.IN => k.2.1
      | Direction.OUT => -k.2.1)).foldl (· + ·) 0

/-! ## indexer.rs: one scan cycle

The per-token body of the polling loop (indexer.rs lines 104-167):
begin a transaction, decode and classify each fetched log, call
record_transfer for each classified transfer (an insert error is
logged with error! and the loop continues), commit, then rerun the
aggregator.  Errors of db.transaction() and tx.commit() are propagated
with the question-mark operator out of run.  Outcomes of the
persistence layer are injected as oracles: `oc i` tells whether the
i-th record_transfer call of the batch succeeds, and TxnEnv tells
whether the transaction begin and commit succeed. -/

/-- Render one byte as two lowercase hex characters. -/
def byteToHex (b : Nat) : Str :=
  let digit := fun (n : Nat) =>
    if n < 10 then Char.ofNat ('0'.toNat + n) else Char.ofNat ('a'.toNat + (n - 10))
  [digit (b / 16 % 16), digit (b % 16)]

/-- The TEXT rendering of an address bound into the SQL parameters
(to_string of an alloy Address).  The EIP-55 checksum casing of the
source is not modelled bytewise; the rendering used here is an
injective hex encoding, which no claim inspects. -/
def addr_to_string (a : Addr) : Str :=
  '0' :: 'x' :: (a.map byteToHex).flatten

/-- Rust `as i64` cast of a u64 value (two-complement wrap). -/
def u64_as_i64 (n : Nat) : Int :=
  if n < 2 ^ 63 then (n : Int) else (n : Int) - 2 ^ 64

/-- indexer.rs lines 118-120: the stored amount,
Decimal::from_u128(value).unwrap_or(ZERO) / 10^18.  from_u128 yields
None above the 96-bit Decimal mantissa, collapsing to zero; below it
the quotient by 10^18 is exactly representable, so the division is
exact. -/
def amount_of (v : Nat) : ℚ :=
  if v < 2 ^ 96 then (v : ℚ) / 10 ^ 18 else 0

/-- The row bound by the record_transfer call of the loop body, with
`ts` the datetime(now) recorded-at time of this cycle. -/
def mkRow (token : Str) (ts : Nat) (t : Transfer) (d : Direction) : Row :=
  { block_number := u64_as_i64 t.block_number
  , tx_hash := t.tx_hash
  , log_index := u64_as_i64 t.log_index
  , token_address := token
  , from_address := addr_to_string t.from_addr
  , to_address := addr_to_string t.to_addr
  , amount := amount_of t.value_u128
  , direction := d
  , timestamp := ts }

/-- State threaded through the per-log loop of one batch: the table as
seen inside the open transaction, the processed_count counter, and the
number of record_transfer calls made so far (indexing the insert
outcome oracle). -/
structure BatchSt where
  table : List Row
  processed : Nat
  attempt_idx : Nat
deriving DecidableEq

/-- One iteration of the for-log loop of indexer.rs run: skip a log
that does not decode, skip a decoded transfer with no direction, and
otherwise call record_transfer, logging and skipping a failed insert
(only successful inserts bump processed_count). -/
def scan_step (watched : List Addr) (token : Str) (ts : Nat) (oc : Nat → Bool)
    (st : BatchSt) (log : Log) : BatchSt :=
  match decode_transfer log with
  | none => st
  | some tr =>
    match classify_direction watched tr.from_addr tr.to_addr with
    | none => st
    | some d =>
      if oc st.attempt_idx then
        ⟨record_transfer st.table (mkRow token ts tr d), st.processed + 1,
          st.attempt_idx + 1⟩
      else
        ⟨st.table, st.processed, st.attempt_idx + 1⟩

/-- The whole for-log loop of one batch over the table at transaction
begin. -/
def scan_batch (watched : List Addr) (token : Str) (ts : Nat) (oc : Nat → Bool)
    (tbl : List Row) (logs : List Log) : BatchSt :=
  logs.foldl (scan_step watched token ts oc) ⟨tbl, 0, 0⟩

/-- Persistence outcomes of the transaction wrapping one batch. -/
structure TxnEnv where
  beginOk : Bool
  commitOk : Bool
deriving DecidableEq

/-- Result of one token of one scan cycle: the durable table
afterwards, whether the transaction committed, whether an error
propagated out of run (the question-mark operator on db.transaction()
or tx.commit()), and the processed_count. -/
structure CycleTokenResult where
  table : List Row
  committed : Bool
  aborted : Bool
  processed : Nat
deriving DecidableEq

/-- One token of one scan cycle (indexer.rs lines 111-162): on a
transaction begin failure nothing is written and the error propagates;
otherwise the batch runs, and a commit failure rolls the whole batch
back (durable table unchanged) and propagates, while a successful
commit makes every successful insert of the batch durable. -/
def scan_cycle_token (watched : List Addr) (token : Str) (ts : Nat)
    (oc : Nat → Bool) (env : TxnEnv) (tbl : List Row) (logs : List Log) :
    CycleTokenResult :=
  if env.beginOk then
    let st := scan_batch watched token ts oc tbl logs
    if env.commitOk then ⟨st.table, true, false, st.processed⟩
    else ⟨tbl, false, true, st.processed⟩
  else ⟨tbl, false, true, 0⟩

/-- Per-token outcome of one polling cycle: the log fetch for the
token failed (logged with warn! and skipped), or it returned logs
together with the persistence outcomes of the batch. -/
inductive TokenInput
  | fetchErr
  | fetched (logs : List Log) (env : TxnEnv) (oc : Nat → Bool)

/-- The for-token loop of one polling cycle: tokens are processed in
order; a fetch error skips the token; a propagated transaction error
aborts the remaining tokens (and the whole run).  Returns the durable
table and whether the cycle aborted. -/
def tokens_fold (watched : List Addr) (ts : Nat) (tbl : List Row) :
    List (Str × TokenInput) → List Row × Bool
  | [] => (tbl, false)
  | (_token, TokenInput.fetchErr) :: rest => tokens_fold watched ts tbl rest
  | (token, TokenInput.fetched logs env oc) :: rest =>
    let r := scan_cycle_token watched token ts oc env tbl logs
    if r.aborted then (r.table, true) else tokens_fold watched ts r.table rest

/-- indexer.rs line 14: the initial retry backoff, in seconds. -/
def initial_retry_delay : Nat := 10

/-- State of the polling loop between cycles. -/
structure IndexerState where
  table : List Row
  retry_delay : Nat
deriving DecidableEq

/-- Outcome of the latest-block fetch opening one polling cycle. -/
inductive CycleInput
  | rpcErr
  | rpcOk (tokenInputs : List (Str × TokenInput))

/-- One iteration of the polling loop (indexer.rs lines 93-178): on a
latest-block fetch failure the retry delay doubles, capped at 120
seconds, and no token is scanned; on success the delay resets to 10
seconds and every token is scanned in order.  The Except error is an
error propagated out of run by the question-mark operator, which ends
the loop. -/
def cycle_step (watched : List Addr) (ts : Nat) (st : IndexerState) :
    CycleInput → Except Unit IndexerState
  | CycleInput.rpcErr =>
    Except.ok ⟨st.table, min (st.retry_delay * 2) 120⟩
  | CycleInput.rpcOk tis =>
    let r := tokens_fold watched ts st.table tis
    if r.2 then Except.error () else Except.ok ⟨r.1, 10⟩

/-! ## rpc.rs: get_block_number retry structure -/

/-- Outcome of one HTTP attempt of get_block_number: a transport error
of the send call, or a response with an HTTP status code and a body.
The body is (none) when reading or JSON-decoding the response text
fails, and otherwise the result string of the JSON-RPC envelope. -/
inductive AttemptOutcome
  | sendErr
  | resp (status : Nat) (body : Option Str)

/-- Final outcome of get_block_number. -/
inductive RpcResult
  | ok (blockNumber : Nat)
  | rpcError
deriving DecidableEq

/-- Trace of one get_block_number call: its result, how many HTTP
attempts it made, and how many fixed-length retry sleeps it performed. -/
structure GbnTrace where
  result : RpcResult
  attempts : Nat
  sleeps : Nat
deriving DecidableEq

/-- rpc.rs line 75: the fixed delay between attempts, in seconds. -/
def retry_sleep_secs : Nat := 2

/-- Evaluation of one attempt given a response was received
(rpc.rs lines 58-68): a non-OK HTTP status returns an error
immediately, a body that cannot be read or decoded returns an error
immediately, a result field that does not parse as a hex integer
returns an error immediately, and otherwise the height is returned.
(none) means the attempt hit the transport-error arm instead. -/
def gbnAttemptEval : AttemptOutcome → Option RpcResult
  | AttemptOutcome.sendErr => none
  | AttemptOutcome.resp status body =>
    if status ≠ 200 then some RpcResult.rpcError
    else
      match body with
      | none => some RpcResult.rpcError
      | some s =>
        match u64FromStrRadix16 (strip0x s) with
        | none => some RpcResult.rpcError
        | some n => some (RpcResult.ok n)

/-- rpc.rs get_block_number: the for-loop over attempts 1..3, sleeping
the fixed delay after a transport error on attempts 1 and 2 and
returning the transport error itself after the third attempt.  The
oracle `o` gives the outcome of each attempt. -/
def get_block_number (o : Nat → AttemptOutcome) : GbnTrace :=
  match gbnAttemptEval (o 1) with
  | some r => ⟨r, 1, 0⟩
  | none =>
    match gbnAttemptEval (o 2) with
    | some r => ⟨r, 2, 1⟩
    | none =>
      match gbnAttemptEval (o 3) with
      | some r => ⟨r, 3, 2⟩
      | none => ⟨RpcResult.rpcError, 3, 2⟩

/-! ## api.rs: get_netflow -/

/-- ASCII lowercasing of one character, the SQLite LOWER function on
the address strings stored by this pipeline. -/
def asciiLower (c : Char) : Char :=
  if 'A' ≤ c ∧ c ≤ 'Z' then Char.ofNat (c.toNat + 32) else c

/-- LOWER of a whole string. -/
def lowerStr (s : Str) : Str := s.map asciiLower

/-- One row of the netflows table, value-level (the cumulative_net
TEXT column holds a decimal string; its value is a rational). -/
structure NetflowRow where
  token_address : Str
  cumulative_net : ℚ
  last_block : Int
deriving DecidableEq

/-- The response record of GET /netflow (models.rs NetFlow without the
updated_at wall-clock field, which no claim constrains). -/
structure NetFlowOut where
  token_address : Str
  cumulative_net : ℚ
  last_block : Int
deriving DecidableEq

/-- api.rs get_netflow: SELECT ... FROM netflows WHERE
LOWER(token_address) = LOWER(?1), taking the first matching row; when
no row matches (or the query errs) the handler returns a default record
echoing the queried token with cumulative_net zero and last_block
zero. -/
def get_netflow (tbl : List NetflowRow) (token : Str) : NetFlowOut :=
  match tbl.find? (fun r => decide (lowerStr r.token_address = lowerStr token)) with
  | some r => ⟨r.token_address, r.cumulative_net, r.last_block⟩
  | none => ⟨token, 0, 0⟩

/-! ## Sample data shared by concrete instantiations -/

/-- Topic holding a 32-byte padded all-zero address. -/
def sampleTopic1 : Str := '0' :: 'x' :: List.replicate 64 '0'

/-- Topic holding a 32-byte padded address ending in byte 1. -/
def sampleTopic2 : Str := '0' :: 'x' :: (List.replicate 63 '0' ++ ['1'])

/-- The 20-byte sender of the sample transfer. -/
def sampleFrom : Addr := List.replicate 20 0

/-- The 20-byte recipient of the sample transfer. -/
def sampleTo : Addr := List.replicate 19 0 ++ [1]

/-- A watched-address set containing only the sample recipient. -/
def sampleWatched : List Addr := [sampleTo]

/-- A well-formed Transfer log: value 255, block 11 (hex b), index 1. -/
def sampleLog1 : Log :=
  ⟨['a'], [['s'], sampleTopic1, sampleTopic2], ['0', 'x', 'f', 'f'],
   ['b'], ['h', '1'], ['1']⟩

/-- A second well-formed Transfer log: block 12 (hex c). -/
def sampleLog2 : Log :=
  ⟨['a'], [['s'], sampleTopic1, sampleTopic2], ['0', 'x', 'f', 'f'],
   ['c'], ['h', '2'], ['1']⟩

/-! ## Claim C10: saturating block-range arithmetic -/

/-- Claim C10: all block-range arithmetic of the indexing loop uses
saturating subtraction, so the target and start bounds never underflow;
when confirmations (or a window) exceeds the available height the bound
clamps to block 0, and the scan range stays well-formed
(start at most target, target at most latest). -/
theorem saturating_range_C10 (latest confirmations : Nat) :
    target_block latest confirmations ≤ latest
    ∧ backfill_start latest confirmations ≤ target_block latest confirmations
    ∧ live_from_block latest confirmations ≤ target_block latest confirmations
    ∧ (latest ≤ confirmations → target_block latest confirmations = 0)
    ∧ (target_block latest confirmations ≤ backfill_blocks →
        backfill_start latest confirmations = 0)
    ∧ (target_block latest confirmations ≤ lookback_blocks →
        live_from_block latest confirmations = 0) := by
  simp only [target_block, backfill_start, live_from_block, saturating_sub,
    backfill_blocks, lookback_blocks]
  omega

/-- Witness for C10 at concrete heights: a chain height below the
confirmation depth clamps the target to block 0, and the live range
start clamps to 0 for a tip shallower than the lookback window. -/
theorem saturating_range_C10_witness :
    target_block 5 100 = 0 ∧ live_from_block 64 2 = 0 :=
  ⟨(saturating_range_C10 5 100).2.2.2.1 (by decide),
   (saturating_range_C10 64 2).2.2.2.2.2 (by decide)⟩

/-! ## Claim C4: direction classification -/

/-- Claim C4: classification is a pure function of the two addresses
and the watched set: IN when the recipient is watched, OUT when only
the sender is watched, and no direction otherwise, in which case the
transfer is discarded by the loop body and never persisted; when both
addresses are watched, IN takes precedence. -/
theorem classify_direction_C4 (watched : List Addr) (f t : Addr) :
    (t ∈ watched → classify_direction watched f t = some Direction.IN)
    ∧ (t ∉ watched → f ∈ watched →
        classify_direction watched f t = some Direction.OUT)
    ∧ (t ∉ watched → f ∉ watched → classify_direction watched f t = none)
    ∧ (f ∈ watched → t ∈ watched →
        classify_direction watched f t = some Direction.IN)
    ∧ (∀ (token : Str) (ts : Nat) (oc : Nat → Bool) (st : BatchSt)
        (log : Log) (tr : Transfer),
        decode_transfer log = some tr →
        classify_direction watched tr.from_addr tr.to_addr = none →
        scan_step watched token ts oc st log = st) := by
  refine ⟨?_, ?_, ?_, ?_, ?_⟩
  · intro h
    simp [classify_direction, h]
  · intro ht hf
    simp [classify_direction, ht, hf]
  · intro ht hf
    simp [classify_direction, ht, hf]
  · intro _ h
    simp [classify_direction, h]
  · intro token ts oc st log tr hdec hcls
    simp only [scan_step, hdec, hcls]

/-- Witness for C4 at concrete addresses: recipient watched gives IN
(also when the sender is watched too), sender-only gives OUT, neither
gives no direction, and an unclassified log leaves the batch state
unchanged. -/
theorem classify_direction_C4_witness :
    classify_direction [[1]] [2] [1] = some Direction.IN
    ∧ classify_direction [[1]] [1] [2] = some Direction.OUT
    ∧ classify_direction [[1]] [2] [3] = none
    ∧ classify_direction [[1], [2]] [2] [1] = some Direction.IN
    ∧ scan_step [] ['t'] 0 (fun _ => true) ⟨[], 0, 0⟩ sampleLog1 = ⟨[], 0, 0⟩ :=
  ⟨(classify_direction_C4 [[1]] [2] [1]).1 (by decide),
   (classify_direction_C4 [[1]] [1] [2]).2.1 (by decide) (by decide),
   (classify_direction_C4 [[1]] [2] [3]).2.2.1 (by decide) (by decide),
   (classify_direction_C4 [[1], [2]] [2] [1]).2.2.2.1 (by decide) (by decide),
   (classify_direction_C4 [] [2] [1]).2.2.2.2 ['t'] 0 (fun _ => true)
     ⟨[], 0, 0⟩ sampleLog1
     ⟨sampleFrom, sampleTo, 255, 11, ['h', '1'], 1⟩ (by decide) (by decide)⟩

/-! ## Claim C9: the netflow query -/

/-- Claim C9: the GET /netflow lookup matches the token address
case-insensitively, and a token with no netflows row yields the default
record echoing the queried token with cumulative_net 0, never an
error (get_netflow is total by construction). -/
theorem get_netflow_C9 (tbl : List NetflowRow) (tok tok2 : Str) :
    (lowerStr tok = lowerStr tok2 →
      (get_netflow tbl tok).cumulative_net = (get_netflow tbl tok2).cumulative_net
      ∧ (get_netflow tbl tok).last_block = (get_netflow tbl tok2).last_block)
    ∧ ((∀ r ∈ tbl, lowerStr r.token_address ≠ lowerStr tok) →
        get_netflow tbl tok = ⟨tok, 0, 0⟩) := by
  constructor
  · intro h
    have hp : (fun r : NetflowRow => decide (lowerStr r.token_address = lowerStr tok))
        = fun r : NetflowRow => decide (lowerStr r.token_address = lowerStr tok2) := by
      funext r
      rw [h]
    unfold get_netflow
    rw [hp]
    cases tbl.find? (fun r : NetflowRow => decide (lowerStr r.token_address = lowerStr tok2)) <;>
      exact ⟨rfl, rfl⟩
  · intro h
    have hnone : tbl.find?
        (fun r : NetflowRow => decide (lowerStr r.token_address = lowerStr tok)) = none := by
      rw [List.find?_eq_none]
      intro r hr
      simpa using h r hr
    unfold get_netflow
    rw [hnone]

/-- The netflows table used by the C9 witness: one row whose stored
token address differs from the queried one only by letter case. -/
def c9_tbl : List NetflowRow := [⟨['0', 'x', 'A', 'B'], 5, 7⟩]

/-- Witness for C9 at a concrete table: the lowercase and uppercase
queries agree, and an unseen token returns the echoing default record
with cumulative_net 0. -/
theorem get_netflow_C9_witness :
    ((get_netflow c9_tbl ['0', 'x', 'a', 'b']).cumulative_net
      = (get_netflow c9_tbl ['0', 'x', 'A', 'B']).cumulative_net)
    ∧ get_netflow c9_tbl ['0', 'x', 'c', 'd'] = ⟨['0', 'x', 'c', 'd'], 0, 0⟩ :=
  ⟨((get_netflow_C9 c9_tbl ['0', 'x', 'a', 'b'] ['0', 'x', 'A', 'B']).1 (by decide)).1,
   (get_netflow_C9 c9_tbl ['0', 'x', 'c', 'd'] ['0', 'x', 'c', 'd']).2 (by decide)⟩

/-! ## Claim C5: the decoding boundary -/

/-- topic_to_address fails on a topic that does not hex-decode. -/
lemma topic_to_address_none_of_bad_hex (t : Str)
    (h : hexDecodeBytes (strip0x t) = none) : topic_to_address t = none := by
  unfold topic_to_address
  rw [h]

/-- topic_to_address fails on a topic that is not exactly 32 bytes. -/
lemma topic_to_address_none_of_len (t : Str) (b : List Nat)
    (h : hexDecodeBytes (strip0x t) = some b) (hb : b.length ≠ 32) :
    topic_to_address t = none := by
  unfold topic_to_address
  rw [h]
  simp [hb]

/-- Inversion of a successful topic_to_address: the topic decodes to
exactly 32 bytes and the address is their low 20. -/
lemma topic_to_address_some_inv (t : Str) (a : Addr)
    (h : topic_to_address t = some a) :
    ∃ b, hexDecodeBytes (strip0x t) = some b ∧ b.length = 32 ∧ a = b.drop 12 := by
  cases hb : hexDecodeBytes (strip0x t) with
  | none =>
    rw [topic_to_address_none_of_bad_hex t hb] at h
    exact absurd h (by simp)
  | some b =>
    by_cases hl : b.length ≠ 32
    · rw [topic_to_address_none_of_len t b hb hl] at h
      exact absurd h (by simp)
    · refine ⟨b, rfl, not_ne_iff.mp hl, ?_⟩
      unfold topic_to_address at h
      rw [hb] at h
      have h2 : (if b.length ≠ 32 then none else some (b.drop 12)) = some a := h
      rw [if_neg hl] at h2
      exact (Option.some_inj.mp h2).symm

/-- decode_transfer fails whenever topic 1 does not resolve. -/
lemma decode_transfer_none_of_topic1 (log : Log)
    (h : topic_to_address (log.topics.getD 1 []) = none) :
    decode_transfer log = none := by
  unfold decode_transfer
  by_cases hl : log.topics.length < 3
  · rw [if_pos hl]
  · rw [if_neg hl, h]

/-- decode_transfer fails whenever topic 2 does not resolve. -/
lemma decode_transfer_none_of_topic2 (log : Log)
    (h : topic_to_address (log.topics.getD 2 []) = none) :
    decode_transfer log = none := by
  unfold decode_transfer
  by_cases hl : log.topics.length < 3
  · rw [if_pos hl]
  · rw [if_neg hl]
    cases h1 : topic_to_address (log.topics.getD 1 []) with
    | none => rfl
    | some f => rw [h]

/-- Claim C5: a log with fewer than 3 topics, or whose topic 1 or
topic 2 is not exactly 32 bytes of hex, is rejected with none rather
than an exception (decode_transfer is total); on well-formed topics the
two addresses are the low 20 bytes of the decoded topics, and a data
payload that does not parse as a u128 yields amount 0 instead of
failing the log. -/
theorem decode_transfer_C5 (log : Log) :
    (log.topics.length < 3 → decode_transfer log = none)
    ∧ (hexDecodeBytes (strip0x (log.topics.getD 1 [])) = none →
        decode_transfer log = none)
    ∧ (∀ b, hexDecodeBytes (strip0x (log.topics.getD 1 [])) = some b →
        b.length ≠ 32 → decode_transfer log = none)
    ∧ (hexDecodeBytes (strip0x (log.topics.getD 2 [])) = none →
        decode_transfer log = none)
    ∧ (∀ b, hexDecodeBytes (strip0x (log.topics.getD 2 [])) = some b →
        b.length ≠ 32 → decode_transfer log = none)
    ∧ (∀ tr, decode_transfer log = some tr →
        (∃ b, hexDecodeBytes (strip0x (log.topics.getD 1 [])) = some b
          ∧ b.length = 32 ∧ tr.from_addr = b.drop 12)
        ∧ (∃ b, hexDecodeBytes (strip0x (log.topics.getD 2 [])) = some b
          ∧ b.length = 32 ∧ tr.to_addr = b.drop 12)
        ∧ (u128FromStrRadix16 (strip0x log.data) = none → tr.value_u128 = 0)) := by
  refine ⟨?_, ?_, ?_, ?_, ?_, ?_⟩
  · intro h
    unfold decode_transfer
    rw [if_pos h]
  · intro h
    exact decode_transfer_none_of_topic1 log (topic_to_address_none_of_bad_hex _ h)
  · intro b hb hl
    exact decode_transfer_none_of_topic1 log (topic_to_address_none_of_len _ b hb hl)
  · intro h
    exact decode_transfer_none_of_topic2 log (topic_to_address_none_of_bad_hex _ h)
  · intro b hb hl
    exact decode_transfer_none_of_topic2 log (topic_to_address_none_of_len _ b hb hl)
  · intro tr htr
    unfold decode_transfer at htr
    by_cases hl : log.topics.length < 3
    · rw [if_pos hl] at htr
      exact absurd htr (by simp)
    · rw [if_neg hl] at htr
      cases h1 : topic_to_address (log.topics.getD 1 []) with
      | none => rw [h1] at htr; exact absurd htr (by simp)
      | some f =>
        rw [h1] at htr
        cases h2 : topic_to_address (log.topics.getD 2 []) with
        | none => rw [h2] at htr; exact absurd htr (by simp)
        | some t =>
          rw [h2] at htr
          cases hbn : u64FromStrRadix16 (strip0x log.block_number_hex) with
          | none => rw [hbn] at htr; exact absurd htr (by simp)
          | some bn =>
            rw [hbn] at htr
            simp only [Option.some_inj] at htr
            obtain ⟨b1, hb1, hlen1, hf⟩ := topic_to_address_some_inv _ _ h1
            obtain ⟨b2, hb2, hlen2, ht⟩ := topic_to_address_some_inv _ _ h2
            refine ⟨⟨b1, hb1, hlen1, ?_⟩, ⟨b2, hb2, hlen2, ?_⟩, ?_⟩
            · rw [← htr]
              exact hf
            · rw [← htr]
              exact ht
            · intro hdata
              rw [← htr]
              simp [hdata]

/-- Witness for C5 at concrete logs: a two-topic log is rejected, a
log with a short topic is rejected, and the sample log decodes to the
padded addresses with their low 20 bytes and value 255. -/
theorem decode_transfer_C5_witness :
    decode_transfer ⟨['a'], [['s'], sampleTopic1], ['0', 'x'], ['b'], ['h'], ['1']⟩ = none
    ∧ decode_transfer ⟨['a'], [['s'], ['0', 'x', 'a', 'b'], sampleTopic2], ['0', 'x'],
        ['b'], ['h'], ['1']⟩ = none
    ∧ (∃ b, hexDecodeBytes (strip0x (sampleLog1.topics.getD 1 [])) = some b
        ∧ b.length = 32
        ∧ (⟨sampleFrom, sampleTo, 255, 11, ['h', '1'], 1⟩ : Transfer).from_addr = b.drop 12) :=
  ⟨(decode_transfer_C5 _).1 (by decide),
   (decode_transfer_C5 _).2.2.1 [171] (by decide) (by decide),
   ((decode_transfer_C5 sampleLog1).2.2.2.2.2
     ⟨sampleFrom, sampleTo, 255, 11, ['h', '1'], 1⟩ (by decide)).1⟩

/-! ## Claim C6: get_block_number retry behaviour -/

/-- A received response with a non-OK status, an unreadable body, or a
result that does not parse evaluates to an immediate error. -/
lemma gbnAttemptEval_bad (status : Nat) (body : Option Str)
    (h : status ≠ 200 ∨ body = none
      ∨ ∃ s, body = some s ∧ u64FromStrRadix16 (strip0x s) = none) :
    gbnAttemptEval (AttemptOutcome.resp status body) = some RpcResult.rpcError := by
  by_cases hst : status ≠ 200
  · cases body with
    | none => simp [gbnAttemptEval, hst]
    | some s => simp [gbnAttemptEval, hst]
  · rcases h with h | h | ⟨s, hs, hp⟩
    · exact absurd h hst
    · subst h
      simp [gbnAttemptEval, hst]
    · subst hs
      simp [gbnAttemptEval, hst, hp]

/-- Claim C6: get_block_number makes at most 3 attempts with a fixed
2-second delay between attempts and returns an error only after the
3rd failed attempt for transport failures, while within any single
attempt a non-success HTTP status or a malformed response body fails
the whole call immediately without consuming the remaining attempts. -/
theorem get_block_number_C6 (o : Nat → AttemptOutcome) :
    (get_block_number o).attempts ≤ 3
    ∧ (get_block_number o).sleeps = (get_block_number o).attempts - 1
    ∧ retry_sleep_secs = 2
    ∧ (o 1 = AttemptOutcome.sendErr → o 2 = AttemptOutcome.sendErr →
        o 3 = AttemptOutcome.sendErr →
        get_block_number o = ⟨RpcResult.rpcError, 3, 2⟩)
    ∧ (∀ status body, o 1 = AttemptOutcome.resp status body →
        (status ≠ 200 ∨ body = none
          ∨ ∃ s, body = some s ∧ u64FromStrRadix16 (strip0x s) = none) →
        get_block_number o = ⟨RpcResult.rpcError, 1, 0⟩)
    ∧ (∀ status body, o 1 = AttemptOutcome.sendErr →
        o 2 = AttemptOutcome.resp status body →
        (status ≠ 200 ∨ body = none
          ∨ ∃ s, body = some s ∧ u64FromStrRadix16 (strip0x s) = none) →
        get_block_number o = ⟨RpcResult.rpcError, 2, 1⟩)
    ∧ (∀ s n, o 1 = AttemptOutcome.sendErr → o 2 = AttemptOutcome.sendErr →
        o 3 = AttemptOutcome.resp 200 (some s) →
        u64FromStrRadix16 (strip0x s) = some n →
        get_block_number o = ⟨RpcResult.ok n, 3, 2⟩) := by
  have hsend : gbnAttemptEval AttemptOutcome.sendErr = none := rfl
  refine ⟨?_, ?_, rfl, ?_, ?_, ?_, ?_⟩
  · unfold get_block_number
    cases gbnAttemptEval (o 1) <;> cases gbnAttemptEval (o 2) <;>
      cases gbnAttemptEval (o 3) <;> simp
  · unfold get_block_number
    cases gbnAttemptEval (o 1) <;> cases gbnAttemptEval (o 2) <;>
      cases gbnAttemptEval (o 3) <;> simp
  · intro h1 h2 h3
    unfold get_block_number
    rw [h1, h2, h3, hsend]
  · intro status body h1 hbad
    unfold get_block_number
    rw [h1, gbnAttemptEval_bad status body hbad]
  · intro status body h1 h2 hbad
    unfold get_block_number
    rw [h1, h2, hsend, gbnAttemptEval_bad status body hbad]
  · intro s n h1 h2 h3 hp
    unfold get_block_number
    rw [h1, h2, h3, hsend]
    have h4 : gbnAttemptEval (AttemptOutcome.resp 200 (some s))
        = some (RpcResult.ok n) := by
      simp [gbnAttemptEval, hp]
    rw [h4]

/-- The attempt oracle of the C6 witness: a transport error on
attempt 1, then an HTTP 404 response on attempt 2. -/
def c6_oracle : Nat → AttemptOutcome := fun n =>
  match n with
  | 2 => AttemptOutcome.resp 404 none
  | _ => AttemptOutcome.sendErr

/-- Witness for C6 at a concrete oracle: after one transport failure,
the HTTP 404 of attempt 2 fails the call immediately with 2 attempts
made and one fixed-delay sleep. -/
theorem get_block_number_C6_witness :
    get_block_number c6_oracle = ⟨RpcResult.rpcError, 2, 1⟩ :=
  (get_block_number_C6 c6_oracle).2.2.2.2.2.1 404 none rfl rfl
    (Or.inl (by decide))

/-! ## Claim C7: the backoff step relation -/

/-- A token whose log fetch failed is skipped: removing it from the
cycle leaves the fold over the remaining tokens unchanged. -/
lemma tokens_fold_skip_fetchErr (watched : List Addr) (ts : Nat) (token : Str)
    (pre post : List (Str × TokenInput)) :
    ∀ tbl, tokens_fold watched ts tbl (pre ++ (token, TokenInput.fetchErr) :: post)
      = tokens_fold watched ts tbl (pre ++ post) := by
  induction pre with
  | nil => intro tbl; rfl
  | cons head rest ih =>
    intro tbl
    obtain ⟨tok2, ti⟩ := head
    cases ti with
    | fetchErr =>
      simp only [List.cons_append, tokens_fold]
      exact ih tbl
    | fetched logs env oc =>
      simp only [List.cons_append, tokens_fold]
      by_cases ha : (scan_cycle_token watched tok2 ts oc env tbl logs).aborted
      · simp [ha]
      · simp only [ha, if_neg, Bool.false_eq_true, if_false]
        exact ih _

/-- Claim C7: the inter-cycle delay starts at 10 seconds; a failed
latest-block fetch doubles it, capped at 120 seconds; a successful
fetch resets it to 10; and a per-token log-fetch failure inside a
cycle changes neither the backoff state nor the processing of the
other tokens of that cycle. -/
theorem retry_backoff_C7 (watched : List Addr) (ts : Nat) (st : IndexerState)
    (tis : List (Str × TokenInput)) (token : Str)
    (pre post : List (Str × TokenInput)) :
    initial_retry_delay = 10
    ∧ cycle_step watched ts st CycleInput.rpcErr
        = Except.ok ⟨st.table, min (st.retry_delay * 2) 120⟩
    ∧ (∀ st2, cycle_step watched ts st (CycleInput.rpcOk tis) = Except.ok st2 →
        st2.retry_delay = 10)
    ∧ cycle_step watched ts st
        (CycleInput.rpcOk (pre ++ (token, TokenInput.fetchErr) :: post))
      = cycle_step watched ts st (CycleInput.rpcOk (pre ++ post)) := by
  refine ⟨rfl, rfl, ?_, ?_⟩
  · intro st2 h
    replace h : (if (tokens_fold watched ts st.table tis).2 = true
        then (Except.error () : Except Unit IndexerState)
        else Except.ok ⟨(tokens_fold watched ts st.table tis).1, 10⟩)
        = Except.ok st2 := h
    by_cases hr : (tokens_fold watched ts st.table tis).2 = true
    · rw [if_pos hr] at h
      exact absurd h (by simp)
    · rw [if_neg hr] at h
      have h3 := Except.ok.inj h
      rw [← h3]
  · show (if (tokens_fold watched ts st.table
          (pre ++ (token, TokenInput.fetchErr) :: post)).2 = true
        then (Except.error () : Except Unit IndexerState)
        else Except.ok ⟨(tokens_fold watched ts st.table
          (pre ++ (token, TokenInput.fetchErr) :: post)).1, 10⟩)
      = if (tokens_fold watched ts st.table (pre ++ post)).2 = true
        then Except.error ()
        else Except.ok ⟨(tokens_fold watched ts st.table (pre ++ post)).1, 10⟩
    rw [tokens_fold_skip_fetchErr watched ts token pre post st.table]

/-- Witness for C7 at a concrete state: a failed fetch doubles the
60-second delay to the 120-second cap, and a successful empty cycle
resets the delay to 10. -/
theorem retry_backoff_C7_witness :
    cycle_step [] 0 ⟨[], 60⟩ CycleInput.rpcErr = Except.ok ⟨[], 120⟩
    ∧ (⟨[], 10⟩ : IndexerState).retry_delay = 10 :=
  ⟨(retry_backoff_C7 [] 0 ⟨[], 60⟩ [] ['t'] [] []).2.1,
   (retry_backoff_C7 [] 0 ⟨[], 60⟩ [] ['t'] [] []).2.2.1 ⟨[], 10⟩ rfl⟩

/-! ## Claim C8: termination of the polling loop (corrected)

The claim says the loop continues for every sequence of RPC results,
decode outcomes and persistence outcomes.  The code propagates errors
of db.transaction() and tx.commit() with the question-mark operator
out of run, so a commit failure is a persistence outcome on which the
loop terminates by itself; the counterexample exhibits one such cycle. -/

/-- Counterexample to C8 as stated: a cycle whose single token fetches
one decodable, classified transfer and whose transaction commit fails
makes the loop body propagate an error, ending the loop, even though a
transfer had been processed inside the batch. -/
theorem cycle_step_commit_error_C8_cex :
    cycle_step sampleWatched 0 ⟨[], 10⟩
      (CycleInput.rpcOk
        [(['t'], TokenInput.fetched [sampleLog1] ⟨true, false⟩ (fun _ => true))])
      = Except.error ()
    ∧ (scan_batch sampleWatched ['t'] 0 (fun _ => true) [] [sampleLog1]).processed = 1 :=
  ⟨rfl, rfl⟩

/-- No transaction of the cycle fails to begin or commit. -/
def no_txn_failure : List (Str × TokenInput) → Prop
  | [] => True
  | (_, TokenInput.fetchErr) :: rest => no_txn_failure rest
  | (_, TokenInput.fetched _ env _) :: rest =>
    env.beginOk = true ∧ env.commitOk = true ∧ no_txn_failure rest

/-- A cycle without transaction begin or commit failures never
aborts. -/
lemma tokens_fold_no_abort (watched : List Addr) (ts : Nat) :
    ∀ (tis : List (Str × TokenInput)) (tbl : List Row), no_txn_failure tis →
      (tokens_fold watched ts tbl tis).2 = false := by
  intro tis
  induction tis with
  | nil => intro tbl _; rfl
  | cons head rest ih =>
    intro tbl h
    obtain ⟨tok, ti⟩ := head
    cases ti with
    | fetchErr => exact ih tbl h
    | fetched logs env oc =>
      obtain ⟨hb, hc, hrest⟩ := h
      simp only [tokens_fold, scan_cycle_token, hb, hc, if_true]
      exact ih _ hrest

/-- Claim C8 amended: the polling loop continues to its next cycle for
every sequence of RPC results, decode outcomes and individual insert
outcomes, provided every batch transaction of the cycle begins and
commits successfully; a transaction begin or commit failure propagates
out of run and ends the loop (beyond that, the loop ends only with the
hosting process). -/
theorem cycle_step_continues_C8 (watched : List Addr) (ts : Nat)
    (st : IndexerState) :
    (∃ st2, cycle_step watched ts st CycleInput.rpcErr = Except.ok st2)
    ∧ (∀ tis, no_txn_failure tis →
        ∃ st2, cycle_step watched ts st (CycleInput.rpcOk tis) = Except.ok st2) := by
  constructor
  · exact ⟨_, rfl⟩
  · intro tis h
    show ∃ st2, (if (tokens_fold watched ts st.table tis).2 = true
        then (Except.error () : Except Unit IndexerState)
        else Except.ok ⟨(tokens_fold watched ts st.table tis).1, 10⟩)
        = Except.ok st2
    refine ⟨⟨(tokens_fold watched ts st.table tis).1, 10⟩, ?_⟩
    rw [tokens_fold_no_abort watched ts tis st.table h]
    simp

/-- Witness for the amended C8 at a concrete cycle: with the commit
succeeding, the same single-transfer cycle as the counterexample
continues to the next loop iteration. -/
theorem cycle_step_continues_C8_witness :
    ∃ st2, cycle_step sampleWatched 0 ⟨[], 10⟩
      (CycleInput.rpcOk
        [(['t'], TokenInput.fetched [sampleLog1] ⟨true, true⟩ (fun _ => true))])
      = Except.ok st2 :=
  (cycle_step_continues_C8 sampleWatched 0 ⟨[], 10⟩).2
    [(['t'], TokenInput.fetched [sampleLog1] ⟨true, true⟩ (fun _ => true))]
    ⟨rfl, rfl, trivial⟩

/-! ## Claim C2: batch atomicity (corrected)

The claim says that on any persistence error while writing a batch the
whole batch is rolled back, the cycle is reported as failed for that
token, and other tokens of the same outer loop iteration are
unaffected.  In the code an error of an individual record_transfer
call is only logged (indexer.rs line 146) and the loop then commits
the remaining inserts, while errors of db.transaction() and
tx.commit() propagate out of run, aborting the remaining tokens. -/

/-- Counterexample to C2 as stated: with the second of two inserts
failing, exactly one of the two transfers of the batch is committed
(neither all nor none) and the cycle is reported as a success for the
token; and with a commit failure on the first of two tokens, the whole
cycle aborts before the second token is processed, so the other token
of the same iteration is affected. -/
theorem scan_cycle_partial_commit_C2_cex :
    scan_cycle_token sampleWatched ['t'] 0 (fun i => decide (i = 0))
        ⟨true, true⟩ [] [sampleLog1, sampleLog2]
      = ⟨[mkRow ['t'] 0 ⟨sampleFrom, sampleTo, 255, 11, ['h', '1'], 1⟩ Direction.IN],
         true, false, 1⟩
    ∧ tokens_fold sampleWatched 0 []
        [(['t'], TokenInput.fetched [sampleLog1] ⟨true, false⟩ (fun _ => true)),
         (['u'], TokenInput.fetched [sampleLog2] ⟨true, true⟩ (fun _ => true))]
      = ([], true) :=
  ⟨rfl, rfl⟩

/-- Claim C2 amended: all writes of one scan cycle for one token go
through a single transaction committed at the end of the batch.  A
failure to begin the transaction writes nothing and propagates out of
run; a commit failure rolls the whole batch back (durable table
unchanged) and propagates out of run, aborting the remaining tokens of
the iteration; an error of an individual record_transfer call is
logged and skipped, the rest of the batch still commits, and the cycle
is reported as a success for that token. -/
theorem scan_cycle_transaction_C2 (watched : List Addr) (token : Str) (ts : Nat)
    (oc : Nat → Bool) (env : TxnEnv) (tbl : List Row) (logs : List Log) :
    (env.beginOk = false →
      scan_cycle_token watched token ts oc env tbl logs = ⟨tbl, false, true, 0⟩)
    ∧ (env.beginOk = true → env.commitOk = false →
        (scan_cycle_token watched token ts oc env tbl logs).table = tbl
        ∧ (scan_cycle_token watched token ts oc env tbl logs).committed = false
        ∧ (scan_cycle_token watched token ts oc env tbl logs).aborted = true)
    ∧ (env.beginOk = true → env.commitOk = true →
        scan_cycle_token watched token ts oc env tbl logs
          = ⟨(scan_batch watched token ts oc tbl logs).table, true, false,
             (scan_batch watched token ts oc tbl logs).processed⟩)
    ∧ (∀ (st : BatchSt) (log : Log) (tr : Transfer) (d : Direction),
        decode_transfer log = some tr →
        classify_direction watched tr.from_addr tr.to_addr = some d →
        oc st.attempt_idx = false →
        scan_step watched token ts oc st log
          = ⟨st.table, st.processed, st.attempt_idx + 1⟩)
    ∧ (∀ (st : BatchSt) (log : Log) (tr : Transfer) (d : Direction),
        decode_transfer log = some tr →
        classify_direction watched tr.from_addr tr.to_addr = some d →
        oc st.attempt_idx = true →
        scan_step watched token ts oc st log
          = ⟨record_transfer st.table (mkRow token ts tr d), st.processed + 1,
             st.attempt_idx + 1⟩) := by
  refine ⟨?_, ?_, ?_, ?_, ?_⟩
  · intro hb
    unfold scan_cycle_token
    rw [hb]
    rfl
  · intro hb hc
    unfold scan_cycle_token
    rw [hb, hc]
    exact ⟨rfl, rfl, rfl⟩
  · intro hb hc
    unfold scan_cycle_token
    rw [hb, hc]
    rfl
  · intro st log tr d hdec hcls hoc
    simp only [scan_step, hdec, hcls, hoc, Bool.false_eq_true, if_false]
  · intro st log tr d hdec hcls hoc
    simp only [scan_step, hdec, hcls, hoc, if_true]

/-- Witness for the amended C2 at concrete inputs: a commit failure
leaves the durable table exactly as before the batch, and a failing
insert outcome skips only that transfer while advancing the attempt
counter. -/
theorem scan_cycle_transaction_C2_witness :
    (scan_cycle_token sampleWatched ['t'] 0 (fun _ => true) ⟨true, false⟩
        [] [sampleLog1]).table = []
    ∧ scan_step sampleWatched ['t'] 0 (fun _ => false) ⟨[], 0, 0⟩ sampleLog1
        = ⟨[], 0, 1⟩ :=
  ⟨((scan_cycle_transaction_C2 sampleWatched ['t'] 0 (fun _ => true) ⟨true, false⟩
      [] [sampleLog1]).2.1 rfl rfl).1,
   (scan_cycle_transaction_C2 sampleWatched ['t'] 0 (fun _ => false) ⟨true, false⟩
      [] [sampleLog1]).2.2.2.1 ⟨[], 0, 0⟩ sampleLog1
      ⟨sampleFrom, sampleTo, 255, 11, ['h', '1'], 1⟩ Direction.IN
      (by decide) (by decide) rfl⟩

/-! ## Claim C3: idempotent upsert -/

/-- Every row shares its own key. -/
lemma keyEq_refl (r : Row) : keyEq r r = true := by
  simp [keyEq]

/-- Overwriting amount, direction and timestamp preserves the key. -/
lemma keyEq_overwrite (x r s : Row) : keyEq (overwriteRow x r) s = keyEq x s := rfl

/-- Rows with equal keys match the same rows. -/
lemma keyEq_congr_right (x r s : Row) (h : keyEq r s = true) :
    keyEq x r = keyEq x s := by
  have h2 := of_decide_eq_true h
  simp only [keyEq, h2.1, h2.2.1, h2.2.2]

/-- The ON CONFLICT update map preserves every key count. -/
lemma countKey_map_overwrite (tbl : List Row) (r s : Row) :
    countKey (tbl.map (fun x => if keyEq x r then overwriteRow x r else x)) s
      = countKey tbl s := by
  unfold countKey
  induction tbl with
  | nil => rfl
  | cons a l ih =>
    simp only [List.map_cons, List.filter_cons]
    have hhead : keyEq (if keyEq a r then overwriteRow a r else a) s = keyEq a s := by
      by_cases h : keyEq a r = true <;> simp [h, keyEq_overwrite]
    rw [hhead]
    by_cases h2 : keyEq a s = true <;> simp [h2, ih]

/-- Key counts add over list append. -/
lemma countKey_append (t1 t2 : List Row) (s : Row) :
    countKey (t1 ++ t2) s = countKey t1 s + countKey t2 s := by
  unfold countKey
  rw [List.filter_append, List.length_append]

/-- The any-test of record_transfer holds exactly when the key is
present. -/
lemma any_keyEq_iff (tbl : List Row) (r : Row) :
    tbl.any (fun x => keyEq x r) = true ↔ 0 < countKey tbl r := by
  unfold countKey
  rw [List.any_eq_true]
  constructor
  · rintro ⟨x, hxm, hxk⟩
    have hmem : x ∈ tbl.filter (fun x => keyEq x r) := List.mem_filter.mpr ⟨hxm, hxk⟩
    exact List.length_pos.mpr (List.ne_nil_of_mem hmem)
  · intro h
    obtain ⟨x, hx⟩ := List.exists_mem_of_ne_nil _ (List.length_pos.mp h)
    have h2 := List.mem_filter.mp hx
    exact ⟨x, h2.1, h2.2⟩

/-- Counting a key only depends on the key. -/
lemma countKey_congr (tbl : List Row) (r s : Row) (h : keyEq r s = true) :
    countKey tbl s = countKey tbl r := by
  unfold countKey
  induction tbl with
  | nil => rfl
  | cons a l ih =>
    simp only [List.filter_cons]
    rw [← keyEq_congr_right a r s h]
    by_cases hc : keyEq a r = true <;> simp [hc, ih]

/-- After an upsert the key of the upserted row is present. -/
lemma countKey_record_pos (tbl : List Row) (r : Row) :
    0 < countKey (record_transfer tbl r) r := by
  unfold record_transfer
  by_cases hany : tbl.any (fun x => keyEq x r) = true
  · rw [if_pos hany, countKey_map_overwrite]
    exact (any_keyEq_iff tbl r).mp hany
  · rw [if_neg hany, countKey_append]
    have h1 : countKey [r] r = 1 := by
      simp [countKey, List.filter, keyEq_refl]
    omega

/-- On a key-unique table, an upsert leaves exactly one row with the
upserted key. -/
lemma countKey_record (tbl : List Row) (r : Row) (h : KeyUnique tbl) :
    countKey (record_transfer tbl r) r = 1 := by
  unfold record_transfer
  by_cases hany : tbl.any (fun x => keyEq x r) = true
  · rw [if_pos hany, countKey_map_overwrite]
    have h1 := h r
    have h2 := (any_keyEq_iff tbl r).mp hany
    omega
  · rw [if_neg hany, countKey_append]
    have h0 : countKey tbl r = 0 := by
      by_contra hc
      exact hany ((any_keyEq_iff tbl r).mpr (Nat.pos_of_ne_zero hc))
    have h1 : countKey [r] r = 1 := by
      simp [countKey, List.filter, keyEq_refl]
    omega

/-- An upsert preserves key uniqueness. -/
lemma keyUnique_record (tbl : List Row) (r : Row) (h : KeyUnique tbl) :
    KeyUnique (record_transfer tbl r) := by
  intro s
  unfold record_transfer
  by_cases hany : tbl.any (fun x => keyEq x r) = true
  · rw [if_pos hany, countKey_map_overwrite]
    exact h s
  · rw [if_neg hany, countKey_append]
    by_cases hk : keyEq r s = true
    · have h0 : countKey tbl s = 0 := by
        rw [countKey_congr tbl r s hk]
        by_contra hc
        exact hany ((any_keyEq_iff tbl r).mpr (Nat.pos_of_ne_zero hc))
      have h1 : countKey [r] s = 1 := by
        simp [countKey, List.filter, hk]
      omega
    · have h1 : countKey [r] s = 0 := by
        simp [countKey, List.filter, hk]
      have h2 := h s
      omega

/-- Every row of the upserted table carrying the upserted key holds
the upserted amount, direction and timestamp. -/
lemma record_overwrites (tbl : List Row) (r : Row) :
    ∀ x ∈ record_transfer tbl r, keyEq x r = true →
      x.amount = r.amount ∧ x.direction = r.direction ∧ x.timestamp = r.timestamp := by
  intro x hx hk
  unfold record_transfer at hx
  by_cases hany : tbl.any (fun y => keyEq y r) = true
  · rw [if_pos hany] at hx
    obtain ⟨y, hy, hxy⟩ := List.mem_map.mp hx
    by_cases h2 : keyEq y r = true
    · rw [if_pos h2] at hxy
      rw [← hxy]
      exact ⟨rfl, rfl, rfl⟩
    · rw [if_neg h2] at hxy
      rw [← hxy] at hk
      exact absurd hk h2
  · rw [if_neg hany] at hx
    rcases List.mem_append.mp hx with h1 | h2
    · exact absurd (List.any_eq_true.mpr ⟨x, h1, hk⟩) hany
    · have hxr : x = r := by simpa using h2
      rw [hxr]
      exact ⟨rfl, rfl, rfl⟩

/-- The columns of a row that the aggregation reads: token_address,
direction, amount, block_number (everything except the key remainder
and the timestamp). -/
def aggView (r : Row) : Str × Direction × ℚ × Int :=
  (r.token_address, r.direction, r.amount, r.block_number)

/-- Tables equal on the aggregated columns have the same per-token
kernels. -/
lemma tokenKernels_congr (rows1 : List Row) :
    ∀ rows2 : List Row, rows1.map aggView = rows2.map aggView →
      ∀ tok, tokenKernels rows1 tok = tokenKernels rows2 tok := by
  induction rows1 with
  | nil =>
    intro rows2 h tok
    cases rows2 with
    | nil => rfl
    | cons b l2 => exact absurd h (by simp)
  | cons a l1 ih =>
    intro rows2 h tok
    cases rows2 with
    | nil => exact absurd h (by simp)
    | cons b l2 =>
      simp only [List.map_cons, List.cons.injEq] at h
      obtain ⟨hab, hl⟩ := h
      have htok : a.token_address = b.token_address := congrArg Prod.fst hab
      have hdir : a.direction = b.direction := congrArg (fun p => p.2.1) hab
      have hamt : a.amount = b.amount := congrArg (fun p => p.2.2.1) hab
      have hblk : a.block_number = b.block_number := congrArg (fun p => p.2.2.2) hab
      unfold tokenKernels tokenRows at *
      simp only [List.filter_cons, htok]
      by_cases hc : b.token_address = tok
      · simp only [hc, decide_True, if_true, List.map_cons]
        rw [ih l2 hl tok]
        have hker : rowKernel a = rowKernel b := by
          unfold rowKernel
          rw [hdir, hamt, hblk]
        rw [hker]
      · simp only [hc, decide_False, if_false]
        exact ih l2 hl tok

/-- The netflow value and last block computed by the aggregator only
depend on the aggregated columns. -/
lemma update_netflows_congr (rows1 rows2 : List Row)
    (h : rows1.map aggView = rows2.map aggView) (tok : Str) :
    update_netflows_net rows1 tok = update_netflows_net rows2 tok
    ∧ update_netflows_last_block rows1 tok = update_netflows_last_block rows2 tok := by
  unfold update_netflows_net inflow_f64 outflow_f64 update_netflows_last_block
  rw [tokenKernels_congr rows1 rows2 h tok]
  exact ⟨rfl, rfl⟩

/-- Re-upserting a row that differs from the stored one only in its
timestamp leaves the aggregated columns of the table unchanged. -/
lemma record_again_view (tbl : List Row) (r r2 : Row)
    (hsame : r2 = { r with timestamp := r2.timestamp }) :
    (record_transfer (record_transfer tbl r) r2).map aggView
      = (record_transfer tbl r).map aggView := by
  have hk : keyEq r2 r = true := by
    rw [hsame]
    simp [keyEq]
  have hamt : r2.amount = r.amount := by rw [hsame]
  have hdir : r2.direction = r.direction := by rw [hsame]
  have hany : (record_transfer tbl r).any (fun x => keyEq x r2) = true := by
    rw [any_keyEq_iff]
    have hp := countKey_record_pos tbl r
    rw [countKey_congr (record_transfer tbl r) r2 r hk] at hp
    exact hp
  conv_lhs => rw [record_transfer]
  rw [if_pos hany, List.map_map]
  apply List.map_congr_left
  intro x hx
  simp only [Function.comp_apply]
  by_cases hxk : keyEq x r2 = true
  · rw [if_pos hxk]
    have hxr : keyEq x r = true := by
      rw [← keyEq_congr_right x r2 r hk]
      exact hxk
    obtain ⟨ha, hd, _⟩ := record_overwrites tbl r x hx hxr
    unfold aggView overwriteRow
    simp only
    rw [hamt, hdir, ha, hd]
  · rw [if_neg hxk]

/-- Claim C3: upserting is idempotent on the identity key: on any
key-unique stored state, re-ingesting a log with the key of an
existing row yields exactly one row for that key (an update
overwriting amount, direction and timestamp, never a duplicate row,
and never an error since record_transfer is total), key uniqueness is
preserved, and re-ingesting the identical log (same fields, new
recorded-at timestamp) leaves the recomputed cumulative_net and
last_block of every token unchanged. -/
theorem record_transfer_idempotent_C3 (tbl : List Row) (r r2 : Row)
    (huniq : KeyUnique tbl) (hsame : r2 = { r with timestamp := r2.timestamp }) :
    countKey (record_transfer tbl r) r = 1
    ∧ KeyUnique (record_transfer tbl r)
    ∧ (∀ x ∈ record_transfer tbl r, keyEq x r = true →
        x.amount = r.amount ∧ x.direction = r.direction ∧ x.timestamp = r.timestamp)
    ∧ (∀ tok, update_netflows_net (record_transfer (record_transfer tbl r) r2) tok
          = update_netflows_net (record_transfer tbl r) tok
        ∧ update_netflows_last_block (record_transfer (record_transfer tbl r) r2) tok
          = update_netflows_last_block (record_transfer tbl r) tok) :=
  ⟨countKey_record tbl r huniq,
   keyUnique_record tbl r huniq,
   record_overwrites tbl r,
   fun tok => update_netflows_congr _ _ (record_again_view tbl r r2 hsame) tok⟩

/-- The row of the C3 witness. -/
def c3_row : Row :=
  { block_number := 11, tx_hash := ['h', '1'], log_index := 1,
    token_address := ['t'], from_address := ['f'], to_address := ['g'],
    amount := 1, direction := Direction.IN, timestamp := 0 }

/-- Witness for C3 at a concrete table: ingesting the same log twice
(the second time with a later recorded-at timestamp) leaves one row
for the key and the same recomputed netflow. -/
theorem record_transfer_idempotent_C3_witness :
    countKey (record_transfer [] c3_row) c3_row = 1
    ∧ update_netflows_net
        (record_transfer (record_transfer [] c3_row) { c3_row with timestamp := 5 }) ['t']
      = update_netflows_net (record_transfer [] c3_row) ['t'] :=
  ⟨(record_transfer_idempotent_C3 [] c3_row { c3_row with timestamp := 5 }
      (fun _ => Nat.zero_le 1) rfl).1,
   ((record_transfer_idempotent_C3 [] c3_row { c3_row with timestamp := 5 }
      (fun _ => Nat.zero_le 1) rfl).2.2.2 ['t']).1⟩

/-! ## Claim C1: aggregation precision (code_bug)

The claim (and the spec invariant) require the persisted cumulative_net
to equal the exact decimal inflow-minus-outflow sum with no
floating-point rounding.  The SQL of update_netflows sums
CAST(amount AS REAL): the amounts 0.1 and 0.2 each round to binary64
and their binary64 sum is the double above 0.3, so the persisted
result carries IEEE-754 rounding, contradicting the claim and the
precision comments of the source itself. -/

/-- pow2z agrees with the integer power. -/
lemma pow2z_eq (k : ℤ) : pow2z k = (2 : ℚ) ^ k := by
  unfold pow2z
  by_cases h : 0 ≤ k
  · rw [if_pos h, ← zpow_natCast (2 : ℚ) k.toNat, Int.toNat_of_nonneg h]
  · rw [if_neg h, ← zpow_natCast (2 : ℚ) (-k).toNat,
      Int.toNat_of_nonneg (by omega : (0 : ℤ) ≤ -k), zpow_neg, inv_inv]

/-- Evaluation of Int.toNat on the literals of this development, for
the arithmetic normalizer. -/
lemma toNat_lit_1 : Int.toNat 1 = 1 := rfl

/-- Evaluation of Int.toNat on the literal 2. -/
lemma toNat_lit_2 : Int.toNat 2 = 2 := rfl

/-- Evaluation of Int.toNat on the literal 3. -/
lemma toNat_lit_3 : Int.toNat 3 = 3 := rfl

/-- Evaluation of Int.toNat on the literal 4. -/
lemma toNat_lit_4 : Int.toNat 4 = 4 := rfl

/-- Evaluation of Int.toNat on the literal 54. -/
lemma toNat_lit_54 : Int.toNat 54 = 54 := rfl

/-- Evaluation of Int.toNat on the literal 55. -/
lemma toNat_lit_55 : Int.toNat 55 = 55 := rfl

/-- Evaluation of Int.toNat on the literal 56. -/
lemma toNat_lit_56 : Int.toNat 56 = 56 := rfl

/-- The binary logarithm from a power-of-two sandwich. -/
lemma int_log_eq (q : ℚ) (k : ℤ) (h0 : 0 < q) (h1 : pow2z k ≤ q)
    (h2 : q < pow2z (k + 1)) : Int.log 2 q = k := by
  rw [pow2z_eq] at h1 h2
  have ha : k ≤ Int.log 2 q := by
    apply (Int.zpow_le_iff_le_log one_lt_two h0).mp
    exact_mod_cast h1
  have hb : Int.log 2 q < k + 1 := by
    apply (Int.lt_zpow_iff_log_lt one_lt_two h0).mp
    exact_mod_cast h2
  omega

/-- Nearest-even rounding below the halfway point rounds down. -/
lemma rnEven_down (x : ℚ) (m : ℤ) (hlow : (m : ℚ) ≤ x) (hhigh : x - m < 1 / 2) :
    rnEven x = m := by
  have hf : ⌊x⌋ = m := Int.floor_eq_iff.mpr ⟨hlow, by linarith⟩
  unfold rnEven
  rw [hf, if_pos hhigh]

/-- Nearest-even rounding above the halfway point rounds up. -/
lemma rnEven_up (x : ℚ) (m : ℤ) (hlow : 1 / 2 < x - m) (hhigh : x < m + 1) :
    rnEven x = m + 1 := by
  have hf : ⌊x⌋ = m := Int.floor_eq_iff.mpr ⟨by linarith, hhigh⟩
  unfold rnEven
  rw [hf, if_neg (by linarith), if_pos hlow]

/-- Nearest-even rounding of an exact tie over an odd integer rounds
up to the even neighbour. -/
lemma rnEven_tie_odd (x : ℚ) (m : ℤ) (heq : x - m = 1 / 2) (hodd : m % 2 = 1) :
    rnEven x = m + 1 := by
  have hf : ⌊x⌋ = m := Int.floor_eq_iff.mpr ⟨by linarith, by linarith⟩
  unfold rnEven
  rw [hf, if_neg (by rw [heq]; norm_num), if_neg (by rw [heq]; norm_num),
    if_neg (by omega)]

/-- Evaluation of round53 on a positive rational from its binary
exponent and the rounding of its scaled significand. -/
lemma round53_pos_eval (q : ℚ) (k n : ℤ) (h0 : 0 < q)
    (h1 : pow2z k ≤ q) (h2 : q < pow2z (k + 1))
    (hrn : rnEven (q / pow2z (k - 52)) = n) :
    round53 q = (n : ℚ) * pow2z (k - 52) := by
  have hlog : Int.log 2 q = k := int_log_eq q k h0 h1 h2
  unfold round53 round53Nonneg
  rw [if_neg (not_lt.mpr h0.le), if_neg h0.ne', hlog, hrn]

/-- round53 fixes zero. -/
lemma round53_zero : round53 0 = 0 := by
  simp [round53, round53Nonneg]

/-- The binary64 value of the decimal 0.1. -/
lemma round53_c1a : round53 (1 / 10) = 7205759403792794 * pow2z (-4 - 52) := by
  apply round53_pos_eval (1 / 10) (-4) 7205759403792794 (by norm_num)
    (by norm_num [pow2z, toNat_lit_1, toNat_lit_2, toNat_lit_3, toNat_lit_4, toNat_lit_54, toNat_lit_55, toNat_lit_56])
    (by norm_num [pow2z, toNat_lit_1, toNat_lit_2, toNat_lit_3, toNat_lit_4, toNat_lit_54, toNat_lit_55, toNat_lit_56])
  have h := rnEven_up ((1 / 10) / pow2z (-4 - 52)) 7205759403792793
    (by norm_num [pow2z, toNat_lit_1, toNat_lit_2, toNat_lit_3, toNat_lit_4, toNat_lit_54, toNat_lit_55, toNat_lit_56]) (by norm_num [pow2z, toNat_lit_1, toNat_lit_2, toNat_lit_3, toNat_lit_4, toNat_lit_54, toNat_lit_55, toNat_lit_56])
  rw [h]
  norm_num

/-- The binary64 value of the decimal 0.2. -/
lemma round53_c1b : round53 (2 / 10) = 7205759403792794 * pow2z (-3 - 52) := by
  apply round53_pos_eval (2 / 10) (-3) 7205759403792794 (by norm_num)
    (by norm_num [pow2z, toNat_lit_1, toNat_lit_2, toNat_lit_3, toNat_lit_4, toNat_lit_54, toNat_lit_55, toNat_lit_56])
    (by norm_num [pow2z, toNat_lit_1, toNat_lit_2, toNat_lit_3, toNat_lit_4, toNat_lit_54, toNat_lit_55, toNat_lit_56])
  have h := rnEven_up ((2 / 10) / pow2z (-3 - 52)) 7205759403792793
    (by norm_num [pow2z, toNat_lit_1, toNat_lit_2, toNat_lit_3, toNat_lit_4, toNat_lit_54, toNat_lit_55, toNat_lit_56]) (by norm_num [pow2z, toNat_lit_1, toNat_lit_2, toNat_lit_3, toNat_lit_4, toNat_lit_54, toNat_lit_55, toNat_lit_56])
  rw [h]
  norm_num

/-- round53 fixes the binary64 value of 0.1. -/
lemma round53_c1a_fix :
    round53 (7205759403792794 * pow2z (-4 - 52))
      = 7205759403792794 * pow2z (-4 - 52) := by
  have h := round53_pos_eval (7205759403792794 * pow2z (-4 - 52)) (-4)
    7205759403792794 (by norm_num [pow2z, toNat_lit_1, toNat_lit_2, toNat_lit_3, toNat_lit_4, toNat_lit_54, toNat_lit_55, toNat_lit_56])
    (by norm_num [pow2z, toNat_lit_1, toNat_lit_2, toNat_lit_3, toNat_lit_4, toNat_lit_54, toNat_lit_55, toNat_lit_56]) (by norm_num [pow2z, toNat_lit_1, toNat_lit_2, toNat_lit_3, toNat_lit_4, toNat_lit_54, toNat_lit_55, toNat_lit_56])
    (rnEven_down _ 7205759403792794 (by norm_num [pow2z, toNat_lit_1, toNat_lit_2, toNat_lit_3, toNat_lit_4, toNat_lit_54, toNat_lit_55, toNat_lit_56])
      (by norm_num [pow2z, toNat_lit_1, toNat_lit_2, toNat_lit_3, toNat_lit_4, toNat_lit_54, toNat_lit_55, toNat_lit_56]))
  rw [h]
  norm_num

/-- The binary64 sum of the doubles of 0.1 and 0.2: an exact halfway
case resolved upward by ties-to-even, landing strictly above 0.3. -/
lemma round53_c1sum :
    round53 (7205759403792794 * pow2z (-4 - 52) + 7205759403792794 * pow2z (-3 - 52))
      = 5404319552844596 * pow2z (-2 - 52) := by
  apply round53_pos_eval _ (-2) 5404319552844596
    (by norm_num [pow2z, toNat_lit_1, toNat_lit_2, toNat_lit_3, toNat_lit_4, toNat_lit_54, toNat_lit_55, toNat_lit_56]) (by norm_num [pow2z, toNat_lit_1, toNat_lit_2, toNat_lit_3, toNat_lit_4, toNat_lit_54, toNat_lit_55, toNat_lit_56])
    (by norm_num [pow2z, toNat_lit_1, toNat_lit_2, toNat_lit_3, toNat_lit_4, toNat_lit_54, toNat_lit_55, toNat_lit_56])
  have h := rnEven_tie_odd
    ((7205759403792794 * pow2z (-4 - 52) + 7205759403792794 * pow2z (-3 - 52))
      / pow2z (-2 - 52))
    5404319552844595 (by norm_num [pow2z, toNat_lit_1, toNat_lit_2, toNat_lit_3, toNat_lit_4, toNat_lit_54, toNat_lit_55, toNat_lit_56]) (by norm_num)
  rw [h]
  norm_num

/-- The binary64 value of the decimal 0.3 itself, which lies strictly
below the binary64 sum of the doubles of 0.1 and 0.2. -/
lemma round53_c1third :
    round53 (3 / 10) = 5404319552844595 * pow2z (-2 - 52) := by
  apply round53_pos_eval (3 / 10) (-2) 5404319552844595 (by norm_num)
    (by norm_num [pow2z, toNat_lit_1, toNat_lit_2, toNat_lit_3, toNat_lit_4, toNat_lit_54, toNat_lit_55, toNat_lit_56])
    (by norm_num [pow2z, toNat_lit_1, toNat_lit_2, toNat_lit_3, toNat_lit_4, toNat_lit_54, toNat_lit_55, toNat_lit_56])
  exact rnEven_down _ 5404319552844595 (by norm_num [pow2z, toNat_lit_1, toNat_lit_2, toNat_lit_3, toNat_lit_4, toNat_lit_54, toNat_lit_55, toNat_lit_56])
    (by norm_num [pow2z, toNat_lit_1, toNat_lit_2, toNat_lit_3, toNat_lit_4, toNat_lit_54, toNat_lit_55, toNat_lit_56])

/-- The token of the C1 failing input. -/
def c1_token : Str := ['t']

/-- The C1 failing input: two IN transfers of the same token with
amounts 0.1 and 0.2 (arising from raw values 10^17 and 2*10^17 after
the 18-decimal scaling) at blocks 11 and 12. -/
def c1_rows : List Row :=
  [ { block_number := 11, tx_hash := ['h', '1'], log_index := 0,
      token_address := c1_token, from_address := ['f'], to_address := ['g'],
      amount := 1 / 10, direction := Direction.IN, timestamp := 0 }
  , { block_number := 12, tx_hash := ['h', '2'], log_index := 0,
      token_address := c1_token, from_address := ['f'], to_address := ['g'],
      amount := 2 / 10, direction := Direction.IN, timestamp := 0 } ]

/-- The inflow column computed by update_netflows on the failing
input: the binary64 sum, not the decimal 0.3. -/
lemma c1_inflow :
    inflow_f64 c1_rows c1_token = 5404319552844596 * pow2z (-2 - 52) := by
  have h0 : inflow_f64 c1_rows c1_token
      = round53 (round53 (0 + round53 (1 / 10)) + round53 (2 / 10)) := rfl
  rw [h0, round53_c1a, round53_c1b, zero_add, round53_c1a_fix, round53_c1sum]

/-- The outflow column on the failing input is zero. -/
lemma c1_outflow : outflow_f64 c1_rows c1_token = 0 := by
  have h0 : outflow_f64 c1_rows c1_token
      = round53 (round53 ((0 : ℚ) + 0) + 0) := rfl
  have hz : round53 ((0 : ℚ) + 0) = 0 := by
    rw [zero_add]
    exact round53_zero
  rw [h0, hz, hz]

/-- The exact decimal net of the failing input. -/
lemma c1_exact : exact_net c1_rows c1_token = 3 / 10 := by
  have h0 : exact_net c1_rows c1_token = (0 + 1 / 10) + 2 / 10 := rfl
  rw [h0]
  norm_num

/-- Claim C1 as evidence of the code bug: on the failing input the
exact decimal net is 0.3, but the net computed by update_netflows
differs from it, its inflow column differs from it, and even the
binary64 rounding of 0.3 itself differs from the computed inflow — so
no decimal value whose binary64 reading round-trips to the computed
column (in particular the persisted string produced through
f64 to_string and Decimal from_str) can equal the exact sum.  The
last_block part of the claim does hold on this input. -/
theorem update_netflows_float_rounding_C1 :
    exact_net c1_rows c1_token = 3 / 10
    ∧ update_netflows_net c1_rows c1_token ≠ exact_net c1_rows c1_token
    ∧ inflow_f64 c1_rows c1_token ≠ exact_net c1_rows c1_token
    ∧ round53 (exact_net c1_rows c1_token) ≠ inflow_f64 c1_rows c1_token
    ∧ outflow_f64 c1_rows c1_token = 0
    ∧ update_netflows_last_block c1_rows c1_token = 12 := by
  have he := c1_exact
  have hi := c1_inflow
  have ho := c1_outflow
  refine ⟨he, ?_, ?_, ?_, ho, ?_⟩
  · unfold update_netflows_net
    rw [hi, ho, he, sub_zero]
    norm_num [pow2z, toNat_lit_1, toNat_lit_2, toNat_lit_3, toNat_lit_4, toNat_lit_54, toNat_lit_55, toNat_lit_56]
  · rw [hi, he]
    norm_num [pow2z, toNat_lit_1, toNat_lit_2, toNat_lit_3, toNat_lit_4, toNat_lit_54, toNat_lit_55, toNat_lit_56]
  · rw [he, round53_c1third, hi]
    norm_num [pow2z, toNat_lit_1, toNat_lit_2, toNat_lit_3, toNat_lit_4, toNat_lit_54, toNat_lit_55, toNat_lit_56]
  · have h0 : update_netflows_last_block c1_rows c1_token = max 11 12 := rfl
    rw [h0]
    norm_num

end PolygonIndexer
